import Mathlib

/-!
Verification of the grafanadata panel-query pipeline (pkg/grafanadata/rest.go,
pkg/grafanadata/grafanadata.go): a shallow embedding of the pure computation
and of the dashboard-state effects of the library, with theorems checking the
specification's claims against it.

Strings are modelled as lists of characters (`Str`); the protocol strings the
claims exercise are ASCII, where Go's byte indexing and character indexing
coincide.  Network exchanges are oracles passed in as functions; Go `int` is
64-bit, modelled as `Int` reduced by `wrap64` where products can overflow.
-/

namespace Grafanadata

/-- Go strings, modelled as lists of characters. -/
abbrev Str := List Char

/-- A Lean string literal as a `Str`. -/
def strL (s : String) : Str := s.toList

/-- Whitespace test backing the model of `strings.TrimSpace` (the ASCII cases
of Go's `unicode.IsSpace`; the interval strings of interest are ASCII). -/
def isSpaceGo (c : Char) : Bool :=
  c == ' ' || c == '\t' || c == '\n' || c == '\x0b' || c == '\x0c' || c == '\r'

/-- Model of `strings.TrimSpace`: drop whitespace from both ends. -/
def trimSpaceGo (s : Str) : Str :=
  ((s.dropWhile isSpaceGo).reverse.dropWhile isSpaceGo).reverse

/-- Model of `strconv.Atoi` (= `ParseInt` base 10, 64-bit): an optional sign
followed by at least one decimal digit, value within `int64` range; `none`
models a non-nil error (syntax or range). -/
def goAtoi (s : Str) : Option Int :=
  let signed : Bool × Str :=
    match s with
    | '+' :: rest => (false, rest)
    | '-' :: rest => (true, rest)
    | _ => (false, s)
  if signed.2 = [] then none
  else if signed.2.all (fun c => c.isDigit) then
    let n : Nat := signed.2.foldl (fun a c => a * 10 + (c.toNat - 48)) 0
    if signed.1 then
      if n ≤ 2 ^ 63 then some (-(n : Int)) else none
    else
      if n < 2 ^ 63 then some (n : Int) else none
  else none

/-- Reduction of an unbounded integer to the value 64-bit two's-complement Go
arithmetic produces (Go `int` is 64-bit and wraps silently on overflow). -/
def wrap64 (x : Int) : Int := (x + 2 ^ 63) % 2 ^ 64 - 2 ^ 63

/-- `const defaultIntervalMs = 60000` (rest.go). -/
def defaultIntervalMs : Int := 60000

/-- Model of `parseIntervalMs` (rest.go): empty input means no interval (0);
otherwise the input is whitespace-trimmed, must be at least 2 characters, and
splits into an integer prefix (`strconv.Atoi`) and a one-character unit; the
successive Go multiplications are each 64-bit.  Any parse failure yields
`defaultIntervalMs`. -/
def parseIntervalMs (interval : Str) : Int :=
  if interval = [] then 0
  else
    let t := trimSpaceGo interval
    if t.length < 2 then defaultIntervalMs
    else
      let unit := t.getLastD ' '
      let valueStr := t.dropLast
      match goAtoi valueStr with
      | none => defaultIntervalMs
      | some value =>
        if unit = 's' then wrap64 (value * 1000)
        else if unit = 'm' then wrap64 (wrap64 (value * 60) * 1000)
        else if unit = 'h' then wrap64 (wrap64 (wrap64 (value * 60) * 60) * 1000)
        else if unit = 'd' then
          wrap64 (wrap64 (wrap64 (wrap64 (value * 24) * 60) * 60) * 1000)
        else defaultIntervalMs

/-- Milliseconds of each recognized unit character, `none` otherwise. -/
def unitMsTable (u : Char) : Option Int :=
  if u = 's' then some 1000
  else if u = 'm' then some 60000
  else if u = 'h' then some 3600000
  else if u = 'd' then some 86400000
  else none

/-- Model of `strings.ReplaceAll`, inner loop: replace each non-overlapping
occurrence of `pat` (non-empty) left to right.  The fuel argument is the
length of the scanned string; each step either consumes `pat.length ≥ 1`
characters or one character, so the fuel never runs out. -/
def replaceFuel (pat rep : Str) : Nat → Str → Str
  | _, [] => []
  | 0, s => s
  | fuel + 1, c :: rest =>
    if pat.isPrefixOf (c :: rest) then
      rep ++ replaceFuel pat rep fuel ((c :: rest).drop pat.length)
    else
      c :: replaceFuel pat rep fuel rest

/-- Model of `strings.ReplaceAll s pat rep`.  (Go treats an empty pattern
specially, inserting `rep` between characters; the patterns the library
builds always contain literal characters, so that case is left as the
identity here and is never exercised.) -/
def replaceAll (s pat rep : Str) : Str :=
  match pat with
  | [] => s
  | _ :: _ => replaceFuel pat rep s.length s

/-- Caller-supplied variable mapping (Go `map[string]string`, iterated here in
list order; the spec flags the unspecified Go map iteration order as an open
question, and no claim depends on it). -/
abbrev VarMap := List (Str × Str)

/-- Model of `panelOptions.applyVariables`: for each pair, replace every
occurrence of `"$" + name` with the value. -/
def applyVariables (vars : VarMap) (s : Str) : Str :=
  vars.foldl (fun acc kv => replaceAll acc ('$' :: kv.1) kv.2) s

/-- `Datasource` (fields used by the library: UID, Type, IsDefault). -/
structure Datasource where
  uid : Str
  type : Str
  isDefault : Bool
deriving DecidableEq

/-- The zero `Datasource` value. -/
def zeroDatasource : Datasource := ⟨[], [], false⟩

/-- Go `any` values stored in a target's `map[string]any`: the shapes the
library reads or writes (strings, ints, datasources, nested maps) plus an
opaque constructor for everything else. -/
inductive TValue where
  | str (s : Str)
  | int (n : Int)
  | ds (d : Datasource)
  | mapv (m : List (Str × TValue))
  | other

/-- Lookup in a Go string-keyed map modelled as an association list (first
binding wins; `aset` keeps keys unique). -/
def aget {α : Type} : List (Str × α) → Str → Option α
  | [], _ => none
  | (k', v') :: rest, k => if k' = k then some v' else aget rest k

/-- Map assignment `m[k] = v`: replace the binding if present, else append. -/
def aset {α : Type} : List (Str × α) → Str → α → List (Str × α)
  | [], k, v => [(k, v)]
  | (k', v') :: rest, k, v =>
    if k' = k then (k, v) :: rest else (k', v') :: aset rest k v

/-- A query target: Go `map[string]any`. -/
abbrev Target := List (Str × TValue)

def dsKey : Str := strL "datasource"

def exprKey : Str := strL "expr"

def mdpKey : Str := strL "maxDataPoints"

def imsKey : Str := strL "intervalMs"

/-- `const defaultMaxDataPoints = 1000` (rest.go). -/
def defaultMaxDataPoints : Int := 1000

/-- Normalization stage 1: `if _, ok := t["datasource"]; !ok { t["datasource"]
= panel.Datasource }`. -/
def stepDs (panelDS : Datasource) (t : Target) : Target :=
  if (aget t dsKey).isSome then t else aset t dsKey (.ds panelDS)

/-- Normalization stage 2: `if expr, ok := t["expr"].(string); ok { t["expr"]
= options.applyVariables(expr) }`. -/
def stepExpr (vars : VarMap) (t : Target) : Target :=
  match aget t exprKey with
  | some (.str e) => aset t exprKey (.str (applyVariables vars e))
  | _ => t

/-- Normalization stage 3: `if _, ok := t["maxDataPoints"]; !ok {
t["maxDataPoints"] = maxDataPoints }`. -/
def stepMdp (mdp : Int) (t : Target) : Target :=
  if (aget t mdpKey).isSome then t else aset t mdpKey (.int mdp)

/-- Normalization stage 4: `if intervalMs > 0 { if _, ok := t["intervalMs"];
!ok { t["intervalMs"] = intervalMs } }`. -/
def stepIms (ims : Int) (t : Target) : Target :=
  if 0 < ims then
    if (aget t imsKey).isSome then t else aset t imsKey (.int ims)
  else t

/-- The per-target body of the normalization loop of `getPanelData` (rest.go):
attach the panel datasource when the target has none, apply variable
substitution to `expr`, inject `maxDataPoints` when absent, and inject
`intervalMs` when positive and absent.  (The legend extraction of the same
loop only writes the side `legends` map, never the target.) -/
def normalizeTarget (panelDS : Datasource) (mdp ims : Int) (vars : VarMap)
    (t : Target) : Target :=
  stepIms ims (stepMdp mdp (stepExpr vars (stepDs panelDS t)))

/-- A panel (fields of the `Panel` type read by the library). -/
structure Panel where
  id : Int
  title : Str
  datasource : Datasource
  maxDataPoints : Option Int
  interval : Str
  targets : List Target

/-- A template variable (fields read by `GetDashboardVariables`). -/
structure TemplateVar where
  name : Str
  type : Str
  query : TValue
  datasource : Datasource

/-- A dashboard's configured time range. -/
structure DashTime where
  fromS : Str
  toS : Str
deriving DecidableEq

/-- The templating section: an ordered list of template variables. -/
structure Templating where
  list : List TemplateVar

/-- A dashboard (the fields of the decoded dashboard the library touches). -/
structure Dashboard where
  id : Int
  uid : Str
  panels : List Panel
  time : DashTime
  templating : Templating

/-- The target loop of `getPanelData` (rest.go) threads the panel's
datasource: a target with no `datasource` key first forces default-datasource
resolution when the panel's own datasource is empty (`dflt = none` models a
failed resolution, which only logs a warning and keeps the empty value), and
the chosen datasource persists on the panel for the remaining targets.
Returns the final panel datasource and the rewritten targets. -/
def normLoop (dflt : Option Datasource) (mdp ims : Int) (vars : VarMap) :
    Datasource → List Target → Datasource × List Target
  | ds, [] => (ds, [])
  | ds, t :: ts =>
    let ds' :=
      if (aget t dsKey).isSome then ds
      else if ds.uid = [] then dflt.getD ds
      else ds
    let r := normLoop dflt mdp ims vars ds' ts
    (r.1, normalizeTarget ds' mdp ims vars t :: r.2)

/-- The whole normalization of a located panel in `getPanelData` (rest.go):
`maxDataPoints` from the panel when set (else 1000), `intervalMs` from the
panel's interval string, then the target loop; the panel's datasource field
and targets are updated in place. -/
def normalizePanel (dflt : Option Datasource) (vars : VarMap) (p : Panel) :
    Panel :=
  let mdp := p.maxDataPoints.getD defaultMaxDataPoints
  let ims := parseIntervalMs p.interval
  let r := normLoop dflt mdp ims vars p.datasource p.targets
  { p with datasource := r.1, targets := r.2 }

/-- Modelled from the spec: `GetPanelByID` is declared in a source file absent
from `src/`; per the spec it locates a panel by numeric ID (linear scan, first
match), and the panel it yields aliases the dashboard's storage, so writes to
it are writes into the dashboard (spec: "mutated in place"). -/
def getPanelByID (d : Dashboard) (pid : Int) : Option Panel :=
  d.panels.find? (fun p => p.id == pid)

/-- Apply `f` to the first panel whose ID matches (the panel `getPanelByID`
aliases); all other panels are untouched. -/
def replaceFirstPanel (pid : Int) (f : Panel → Panel) : List Panel → List Panel
  | [] => []
  | p :: ps => if p.id == pid then f p :: ps else p :: replaceFirstPanel pid f ps

/-- The dashboard-state effect of `getPanelData` (rest.go): locate the panel
(`none` models the not-found error path) and normalize its targets in place.
Serializing and posting the query request reads the dashboard but writes
nothing. -/
def getPanelDataDash (dflt : Option Datasource) (vars : VarMap) (pid : Int)
    (d : Dashboard) : Option Dashboard :=
  match getPanelByID d pid with
  | none => none
  | some _ =>
    some { d with panels := replaceFirstPanel pid (normalizePanel dflt vars) d.panels }

/-- A junk panel for total list indexing in theorem statements. -/
def panel0 : Panel := ⟨0, [], zeroDatasource, none, [], []⟩

def dsD : Datasource := ⟨strL "D", strL "prometheus", true⟩

def dEx : Dashboard :=
  ⟨7, strL "u", [⟨1, strL "t", zeroDatasource, none, [], [[]]⟩],
    ⟨strL "now-6h", strL "now"⟩, ⟨[]⟩⟩

def dExNorm : Dashboard :=
  ⟨7, strL "u",
    [⟨1, strL "t", dsD, none, [],
      [[(dsKey, TValue.ds dsD), (mdpKey, TValue.int 1000)]]⟩],
    ⟨strL "now-6h", strL "now"⟩, ⟨[]⟩⟩

/-- Model of `getDefaultDatasource` (rest.go): the state is the client's
cached `defaultDatasource` field (the zero value at construction); `backend`
is the decoded list a successful `GET /api/datasources` returns.  The result
is (new cache, returned datasource, whether a network fetch was issued): with
a non-empty cached UID the cache is returned without fetching; otherwise the
list is fetched and the first datasource flagged default (if any) is stored
and returned; with no default flagged, the unchanged zero value is returned
without error. -/
def getDefaultDatasourceM (backend : List Datasource) (cache : Datasource) :
    Datasource × Datasource × Bool :=
  if cache.uid ≠ [] then (cache, cache, false)
  else
    match backend.find? (fun d => d.isDefault) with
    | some d => (d, d, true)
    | none => (cache, cache, true)

/-- Model of `strings.TrimPrefix`: drop `pre` when it is a prefix. -/
def trimPrefixStr (pre s : Str) : Str :=
  if pre.isPrefixOf s then s.drop pre.length else s

/-- Model of `strings.TrimSuffix`: drop `suf` when it is a suffix. -/
def trimSuffixStr (suf s : Str) : Str :=
  if suf.isSuffixOf s then s.take (s.length - suf.length) else s

/-- Model of `strings.Split` with a one-character separator (the only form the
library uses). -/
def splitChar (c : Char) : Str → List Str
  | [] => [[]]
  | x :: xs =>
    match splitChar c xs with
    | [] => [[]]
    | y :: ys => if x = c then [] :: y :: ys else (x :: y) :: ys

/-- Model of `strings.Join` with a one-character separator. -/
def joinChar (sep : Char) : List Str → Str
  | [] => []
  | [x] => x
  | x :: y :: rest => x ++ sep :: joinChar sep (y :: rest)

def lvPre : Str := strL "label_values("

/-- The parsing portion of `getLabelValues` (rest.go): strip the
`label_values(` prefix and the `)` suffix, split on commas; fewer than two
segments is an invalid-format error (`none`); with more than two segments the
last is the label and the preceding ones are rejoined as the metric; the
metric gets the variable mapping applied and both sides are
whitespace-trimmed, as in the source. -/
def parseLabelValuesQuery (vars : VarMap) (query : Str) : Option (Str × Str) :=
  let q := trimPrefixStr lvPre query
  let q2 := trimSuffixStr (strL ")") q
  match splitChar ',' q2 with
  | [] => none
  | [_] => none
  | p0 :: p1 :: rest =>
    let metricPart :=
      if rest = [] then p0 else joinChar ',' ((p0 :: p1 :: rest).dropLast)
    let labelPart :=
      if rest = [] then p1 else (p0 :: p1 :: rest).getLastD []
    some (applyVariables vars (trimSpaceGo metricPart), trimSpaceGo labelPart)

/-- Outcome of one template-variable iteration of `GetDashboardVariables`
(rest.go): continue with updated state, return an error (`return nil, err`),
or hit the Go runtime panic of assigning into a nil map. -/
inductive StepOut where
  | cont (vars : Option VarMap) (res : List (Str × List Str))
  | fail
  | nilMapWrite
deriving DecidableEq

/-- Outcome of `GetDashboardVariables` as a whole. -/
inductive GdvOut where
  | ok (res : List (Str × List Str))
  | err
  | nilMapWrite
deriving DecidableEq

/-- Reading `options.variables[k]`: a read from a nil Go map yields the zero
value `""`, as does a missing key. -/
def varsGet (vars : Option VarMap) (k : Str) : Str :=
  match vars with
  | none => []
  | some m => (aget m k).getD []

/-- `getLabelValues` (rest.go) up to the network exchange: parse the
`label_values(metric, label)` query (applying `options.variables`, a nil map
substituting nothing), then ask the oracle `lv` (datasource UID, metric,
label); `none` is any request/transport/status/decode failure. -/
def getLabelValuesM (lv : Str → Str → Str → Option (List Str))
    (vars : Option VarMap) (uid : Str) (query : Str) : Option (List Str) :=
  match parseLabelValuesQuery (vars.getD []) query with
  | none => none
  | some ml => lv uid ml.1 ml.2

/-- One iteration of the template-variable loop of `GetDashboardVariables`
(rest.go): skip non-`"query"` variables and malformed query payloads; resolve
an empty datasource through the default resolver (`dflt = none` models a
resolution failure, which aborts the whole call); for `label_values(` queries
fetch the values (failure aborts), store them under the variable's name, and
when `options.variables[name]` reads empty, write the `"|"`-join back into
`options.variables` — a write that panics when the caller supplied no
variable map (nil map); other query strings are skipped with a warning. -/
def gdvStep (dflt : Option Datasource) (lv : Str → Str → Str → Option (List Str))
    (tpl : TemplateVar) (vars : Option VarMap)
    (res : List (Str × List Str)) : StepOut :=
  if tpl.type ≠ strL "query" then .cont vars res
  else
    match tpl.query with
    | .mapv m =>
      match aget m (strL "query") with
      | some (.str q) =>
        let dsv : Option Datasource :=
          if tpl.datasource.uid = [] then dflt else some tpl.datasource
        match dsv with
        | none => .fail
        | some ds =>
          if lvPre.isPrefixOf q then
            match getLabelValuesM lv vars ds.uid q with
            | none => .fail
            | some values =>
              let res2 := aset res tpl.name values
              if varsGet vars tpl.name = [] then
                match vars with
                | none => .nilMapWrite
                | some mv =>
                  .cont (some (aset mv tpl.name (joinChar '|' values))) res2
              else .cont vars res2
          else .cont vars res
      | _ => .cont vars res
    | _ => .cont vars res

/-- `GetDashboardVariables` (rest.go) over the dashboard's template list. -/
def gdvRun (dflt : Option Datasource) (lv : Str → Str → Str → Option (List Str)) :
    List TemplateVar → Option VarMap → List (Str × List Str) → GdvOut
  | [], _, res => .ok res
  | tpl :: rest, vars, res =>
    match gdvStep dflt lv tpl vars res with
    | .cont v r => gdvRun dflt lv rest v r
    | .fail => .err
    | .nilMapWrite => .nilMapWrite

/-- Iterated `gdvStep` over a prefix of the template list, carrying the
intermediate state. -/
def gdvSteps (dflt : Option Datasource) (lv : Str → Str → Str → Option (List Str)) :
    List TemplateVar → Option VarMap → List (Str × List Str) → StepOut
  | [], vars, res => .cont vars res
  | tpl :: rest, vars, res =>
    match gdvStep dflt lv tpl vars res with
    | .cont v r => gdvSteps dflt lv rest v r
    | out => out

def tplFail : TemplateVar :=
  ⟨strL "v", strL "query",
    .mapv [(strL "query", .str (strL "label_values(up,instance)"))],
    ⟨strL "X", [], false⟩⟩

def tplOk : TemplateVar :=
  ⟨strL "v", strL "query",
    .mapv [(strL "query", .str (strL "label_values(up, instance)"))],
    ⟨strL "X", [], false⟩⟩

/-- A schema field: the transcoder only reads its label mapping. -/
structure Field where
  labels : List (Str × Str)

/-- A frame schema: ordered field descriptors. -/
structure FrameSchema where
  fields : List Field

/-- Modelled from the spec: a frame's Data section, "parallel arrays:
conventionally index 0 = timestamps in ms, index 1 = values"; the element
type (integers, hence Go integer division by 1000) comes from the type
declarations of the repository, which are in a source file absent from
`src/`, and follows the spec's "integer division". -/
structure FrameData where
  values : List (List Int)

/-- One decoded time-series result block (schema + parallel data arrays). -/
structure Frame where
  schema : FrameSchema
  data : FrameData

/-- The per-target decoded result: one or more frames. -/
structure QueryResult where
  frames : List Frame

/-- The normalized result set: reference ID ↦ result, with the legend mapping
attached post-decode. -/
structure Results where
  results : List (Str × QueryResult)
  legends : List (Str × Str)

/-- One matrix entry of the Prometheus-format response. -/
structure PrometheusMetricDataResult where
  metric : List (Str × Str)
  values : List (Int × Int)

/-- The data section of the Prometheus-format response. -/
structure PrometheusMetricData where
  resultType : Str
  result : List PrometheusMetricDataResult

/-- The Prometheus-format response envelope. -/
structure PrometheusMetricResponse where
  status : Str
  data : PrometheusMetricData

/-- The legend placeholder `"{{" + labelKey + "}}"`. -/
def legendPat (k : Str) : Str := strL "\x7b\x7b" ++ k ++ strL "\x7d\x7d"

/-- The label side of the transcoder's field loop
(`ConvertResultToPrometheusFormat`, grafanadata.go): fold every field's
labels into the label set seeded with `__refId__`. -/
def frameLabelsFold (ref : Str) (fields : List Field) : List (Str × Str) :=
  fields.foldl (fun acc f => f.labels.foldl (fun a kv => aset a kv.1 kv.2) acc)
    [(strL "__refId__", ref)]

/-- The legend side of the same loop: for every label, when the running
legend is non-empty, replace every `"{{key}}"` by the label's value.  (The
source interleaves this with `frameLabelsFold` in a single loop over the same
fields; the two accumulators are independent.) -/
def frameLegendFold (legend0 : Str) (fields : List Field) : Str :=
  fields.foldl
    (fun lg f => f.labels.foldl
      (fun lg kv => if lg = [] then lg else replaceAll lg (legendPat kv.1) kv.2) lg)
    legend0

/-- The claim-shaped legend fold: the same substitution without the non-empty
guard (the guard only skips substitution into the empty string, where no
placeholder can occur). -/
def legendSubstAll (legend0 : Str) (fields : List Field) : Str :=
  fields.foldl
    (fun lg f => f.labels.foldl
      (fun lg kv => replaceAll lg (legendPat kv.1) kv.2) lg)
    legend0

/-- The sample loop of the transcoder: `for index, timestamp := range
timestamps { if index < len(values) { append([timestamp/1000, value]) } }`. -/
def framePairsAux (vs : List Int) : List Int → Nat → List (Int × Int)
  | [], _ => []
  | t :: ts, i =>
    if i < vs.length then
      (Int.tdiv t 1000, vs.getD i 0) :: framePairsAux vs ts (i + 1)
    else framePairsAux vs ts (i + 1)

/-- The sample pairs of one frame: array 0 is timestamps, array 1 values;
fewer than two arrays contribute nothing. -/
def framePairs (vals : List (List Int)) : List (Int × Int) :=
  match vals with
  | ts :: vs :: _ => framePairsAux vs ts 0
  | _ => []

/-- One frame's matrix entry (`ConvertResultToPrometheusFormat`,
grafanadata.go): labels seeded with `__refId__`, legend substituted and
attached as `__legend__`, and the `[timestamp/1000, value]` sample pairs. -/
def frameToProm (legends : List (Str × Str)) (ref : Str) (f : Frame) :
    PrometheusMetricDataResult :=
  { metric := aset (frameLabelsFold ref f.schema.fields) (strL "__legend__")
      (frameLegendFold ((aget legends ref).getD []) f.schema.fields)
    values := framePairs f.data.values }

/-- `ConvertResultToPrometheusFormat` (grafanadata.go): every frame of every
reference becomes one matrix entry, under a fixed `success`/`matrix`
envelope. -/
def ConvertResultToPrometheusFormat (rs : Results) : PrometheusMetricResponse :=
  { status := strL "success"
    data := { resultType := strL "matrix"
              result := (rs.results.map
                (fun pr => pr.2.frames.map (frameToProm rs.legends pr.1))).flatten } }

/-- Digit value of a character, Go-style: `0-9`, then case-folded letters
from `a`; `none` when not alphanumeric. -/
def digitVal (c : Char) : Option Nat :=
  let n := c.toNat
  if 48 ≤ n ∧ n ≤ 57 then some (n - 48)
  else
    let l := n ||| 32
    if 97 ≤ l ∧ l ≤ 122 then some (l - 97 + 10) else none

/-- The saw-state of Go `underscoreOK`: beginning of number, digit (or base
prefix), underscore, or other. -/
inductive Saw where
  | start
  | digit
  | under
  | other
deriving DecidableEq

/-- The scan loop of Go `underscoreOK`: an underscore must follow a digit (or
base prefix) and be followed by a digit; hex digits count as digits only
after a `0x` prefix. -/
def underscoreOKCore (hex : Bool) : Saw → Str → Bool
  | saw, [] =>
    match saw with
    | Saw.under => false
    | _ => true
  | saw, c :: rest =>
    if c.isDigit ∨ (hex ∧ (97 ≤ (c.toNat ||| 32) ∧ (c.toNat ||| 32) ≤ 102)) then
      underscoreOKCore hex Saw.digit rest
    else if c = '_' then
      match saw with
      | Saw.digit => underscoreOKCore hex Saw.under rest
      | _ => false
    else
      match saw with
      | Saw.under => false
      | _ => underscoreOKCore hex Saw.other rest

/-- Model of Go `strconv`'s `underscoreOK`: skip an optional sign and base
prefix (which counts as a digit), then scan. -/
def underscoreOK (s : Str) : Bool :=
  let s1 := match s with
    | c :: rest => if c = '-' ∨ c = '+' then rest else s
    | [] => s
  match s1 with
  | '0' :: c :: rest =>
    let l := c.toNat ||| 32
    if l = 98 ∨ l = 111 ∨ l = 120 then
      underscoreOKCore (decide (l = 120)) Saw.digit rest
    else underscoreOKCore false Saw.start s1
  | _ => underscoreOKCore false Saw.start s1

/-- The digit-accumulation loop of `ParseUint` under base 0: underscores are
skipped (recorded), a digit out of base or a non-digit is a syntax error. -/
def goDigitsAcc (base : Nat) : Str → Bool → Nat → Option (Nat × Bool)
  | [], sawU, acc => some (acc, sawU)
  | c :: rest, sawU, acc =>
    if c = '_' then goDigitsAcc base rest true acc
    else
      match digitVal c with
      | none => none
      | some d =>
        if d < base then goDigitsAcc base rest sawU (acc * base + d) else none

/-- Model of `strconv.ParseUint(s, 0, 64)` on a sign-stripped string: base
prefix detection (`0b`/`0o`/`0x` when at least one character follows, else a
leading `0` means octal), digit accumulation, the `underscoreOK` validity
check when underscores occurred, and the unsigned 64-bit range check; `none`
models a non-nil error.  (Go reports overflow during accumulation; since the
accumulator only grows, checking the final value is equivalent.) -/
def goParseUint0 (s : Str) : Option Nat :=
  if s = [] then none
  else
    let bp : Nat × Str :=
      match s with
      | '0' :: c :: rest =>
        let l := c.toNat ||| 32
        if l = 98 ∧ rest ≠ [] then (2, rest)
        else if l = 111 ∧ rest ≠ [] then (8, rest)
        else if l = 120 ∧ rest ≠ [] then (16, rest)
        else (8, c :: rest)
      | '0' :: [] => (8, [])
      | _ => (10, s)
    match goDigitsAcc bp.1 bp.2 false 0 with
    | none => none
    | some nu =>
      if nu.2 ∧ ¬ underscoreOK s then none
      else if nu.1 ≤ 2 ^ 64 - 1 then some nu.1 else none

/-- Model of `strconv.ParseInt(viewPanel, 0, 0)` (bit size 0 = native 64-bit
int): optional sign, `ParseUint` base 0, signed 64-bit range check. -/
def goParseInt0 (s : Str) : Option Int :=
  match s with
  | [] => none
  | c :: rest =>
    let neg := c = '-'
    let body := if c = '+' ∨ c = '-' then rest else s
    match goParseUint0 body with
    | none => none
    | some un =>
      if neg then
        if un > 2 ^ 63 then none else some (-(un : Int))
      else
        if un ≥ 2 ^ 63 then none else some (un : Int)

/-- A URL as Go `url.Parse` hands it to `ExtractArgs`: the path and decoded
query parameters; `none` stands for a `url.Parse` failure (malformed URL).
The parser itself is the standard library, an external collaborator. -/
structure ParsedURL where
  path : Str
  query : List (Str × Str)

/-- `url.Values.Get`: first value for the key, `""` when absent. -/
def queryGet (q : List (Str × Str)) (k : Str) : Str :=
  ((q.find? (fun kv => kv.1 == k)).map (fun kv => kv.2)).getD []

/-- `ExtractArgs` (rest.go): a parse failure, fewer than three `/`-separated
path segments, an empty or missing `viewPanel` parameter, or an unparseable
`viewPanel` integer yield `("", 0)`; otherwise the third path segment is the
UID and the parsed `viewPanel` the panel ID. -/
def ExtractArgs (u : Option ParsedURL) : Str × Int :=
  match u with
  | none => ([], 0)
  | some pu =>
    let segs := splitChar '/' pu.path
    if 3 ≤ segs.length then
      let vp := queryGet pu.query (strL "viewPanel")
      if vp = [] then ([], 0)
      else
        match goParseInt0 vp with
        | none => ([], 0)
        | some n => (segs.getD 2 [], n)
    else ([], 0)

theorem wrap64_add_mul (x k : Int) : wrap64 (x + 2 ^ 64 * k) = wrap64 x := by
  unfold wrap64
  have h : x + 2 ^ 64 * k + 2 ^ 63 = x + 2 ^ 63 + 2 ^ 64 * k := by ring
  rw [h, Int.add_mul_emod_self_left]

theorem wrap64_sub_q (a : Int) :
    wrap64 a = a - 2 ^ 64 * ((a + 2 ^ 63) / 2 ^ 64) := by
  unfold wrap64
  rw [Int.emod_def]
  ring

theorem wrap64_mul_left (a b : Int) : wrap64 (wrap64 a * b) = wrap64 (a * b) := by
  rw [wrap64_sub_q a]
  have h : (a - 2 ^ 64 * ((a + 2 ^ 63) / 2 ^ 64)) * b
      = a * b + 2 ^ 64 * (-((a + 2 ^ 63) / 2 ^ 64 * b)) := by ring
  rw [h, wrap64_add_mul]

theorem wrap64_mul_left3 (a b c : Int) :
    wrap64 (wrap64 a * b * c) = wrap64 (a * b * c) := by
  have h : wrap64 a * b * c = wrap64 a * (b * c) := by ring
  have h2 : a * (b * c) = a * b * c := by ring
  rw [h, wrap64_mul_left, h2]

theorem wrap64_mul_left4 (a b c d : Int) :
    wrap64 (wrap64 a * b * c * d) = wrap64 (a * b * c * d) := by
  have h : wrap64 a * b * c * d = wrap64 a * (b * c * d) := by ring
  have h2 : a * (b * c * d) = a * b * c * d := by ring
  rw [h, wrap64_mul_left, h2]

theorem wrap64_eq_self (x : Int) (h1 : -(2 ^ 63) ≤ x) (h2 : x < 2 ^ 63) :
    wrap64 x = x := by
  unfold wrap64
  rw [Int.emod_eq_of_lt (by omega) (by omega)]
  omega

theorem goAtoi_nil : goAtoi [] = none := rfl

theorem getLastD_append_singleton (l : Str) (a d : Char) :
    (l ++ [a]).getLastD d = a := by
  simp [List.getLastD_eq_getLast?, List.getLast?_concat]

theorem dropLast_append_singleton (l : Str) (a : Char) :
    (l ++ [a]).dropLast = l := by
  induction l with
  | nil => rfl
  | cons c l ih =>
    cases l with
    | nil => rfl
    | cons d l' => simp_all [List.dropLast]

example : parseIntervalMs (strL "1m") = 60000 := by decide

example : parseIntervalMs (strL "30s") = 30000 := by decide

example : parseIntervalMs (strL "1h") = 3600000 := by decide

example : parseIntervalMs (strL "1d") = 86400000 := by decide

/-- Claim C1, counterexample.  The claim sorts every non-empty input that is
not literally an integer followed by a unit character into the 60000 fallback,
but the source trims whitespace first: `" 5m"` is not of the integer+unit form
(its prefix `" 5"` is not an `Atoi` integer), yet the result is 300000, not
60000. -/
theorem parseIntervalMs_claim_cx :
    parseIntervalMs (strL " 5m") = 300000
    ∧ strL " 5m" ≠ []
    ∧ 2 ≤ (strL " 5m").length
    ∧ goAtoi ((strL " 5m").dropLast) = none
    ∧ (300000 : Int) ≠ 60000 := by decide

/-- Claim C1, amended.  `parseIntervalMs` is a pure total function with:
empty input ↦ 0; after whitespace trimming, trimmed length < 2 ↦ 60000;
trimmed input of the form integer `n` followed by a unit in `{s,m,h,d}` ↦
`n * unitMillis` whenever the product is within 64-bit signed range; trimmed
input ending in an unrecognized unit or with a non-integer prefix ↦ 60000;
and `"0m" ↦ 0`, `"invalid" ↦ 60000`, `"m" ↦ 60000`, `"3x" ↦ 60000`. -/
theorem parseIntervalMs_spec :
    parseIntervalMs [] = 0
    ∧ (∀ s : Str, s ≠ [] → (trimSpaceGo s).length < 2 →
        parseIntervalMs s = defaultIntervalMs)
    ∧ (∀ (s pre : Str) (u : Char) (n ms : Int), s ≠ [] →
        trimSpaceGo s = pre ++ [u] → goAtoi pre = some n → unitMsTable u = some ms →
        -(2 ^ 63) ≤ n * ms → n * ms < 2 ^ 63 → parseIntervalMs s = n * ms)
    ∧ (∀ (s pre : Str) (u : Char), s ≠ [] → trimSpaceGo s = pre ++ [u] →
        (goAtoi pre = none ∨ unitMsTable u = none) →
        parseIntervalMs s = defaultIntervalMs)
    ∧ parseIntervalMs (strL "0m") = 0
    ∧ parseIntervalMs (strL "invalid") = defaultIntervalMs
    ∧ parseIntervalMs (strL "m") = defaultIntervalMs
    ∧ parseIntervalMs (strL "3x") = defaultIntervalMs := by
  refine ⟨rfl, ?_, ?_, ?_, by decide, by decide, by decide, by decide⟩
  · intro s hs hlen
    simp only [parseIntervalMs, if_neg hs]
    rw [if_pos hlen]
  · intro s pre u n ms hs ht hn hu h1 h2
    have hpre : pre ≠ [] := by
      intro h
      rw [h, goAtoi_nil] at hn
      exact Option.noConfusion hn
    have hlen : ¬ (trimSpaceGo s).length < 2 := by
      rw [ht, List.length_append, List.length_singleton]
      have := List.length_pos.mpr hpre
      omega
    simp only [parseIntervalMs, if_neg hs]
    rw [if_neg hlen, ht, getLastD_append_singleton, dropLast_append_singleton, hn]
    by_cases hus : u = 's'
    · subst hus
      have hms : ms = 1000 := by simpa [unitMsTable] using hu.symm
      subst hms
      show wrap64 (n * 1000) = n * 1000
      exact wrap64_eq_self _ h1 h2
    by_cases hum : u = 'm'
    · subst hum
      have hms : ms = 60000 := by simpa [unitMsTable] using hu.symm
      subst hms
      show wrap64 (wrap64 (n * 60) * 1000) = n * 60000
      rw [wrap64_mul_left]
      have he : n * 60 * 1000 = n * 60000 := by ring
      rw [he]
      exact wrap64_eq_self _ h1 h2
    by_cases huh : u = 'h'
    · subst huh
      have hms : ms = 3600000 := by simpa [unitMsTable] using hu.symm
      subst hms
      show wrap64 (wrap64 (wrap64 (n * 60) * 60) * 1000) = n * 3600000
      rw [wrap64_mul_left, wrap64_mul_left3]
      have he : n * 60 * 60 * 1000 = n * 3600000 := by ring
      rw [he]
      exact wrap64_eq_self _ h1 h2
    by_cases hud : u = 'd'
    · subst hud
      have hms : ms = 86400000 := by simpa [unitMsTable] using hu.symm
      subst hms
      show wrap64 (wrap64 (wrap64 (wrap64 (n * 24) * 60) * 60) * 1000) = n * 86400000
      rw [wrap64_mul_left, wrap64_mul_left3, wrap64_mul_left4]
      have he : n * 24 * 60 * 60 * 1000 = n * 86400000 := by ring
      rw [he]
      exact wrap64_eq_self _ h1 h2
    · simp only [unitMsTable, if_neg hus, if_neg hum, if_neg huh, if_neg hud] at hu
      exact Option.noConfusion hu
  · intro s pre u hs ht hor
    by_cases hlen : (trimSpaceGo s).length < 2
    · simp only [parseIntervalMs, if_neg hs]
      rw [if_pos hlen]
    · simp only [parseIntervalMs, if_neg hs]
      rw [if_neg hlen, ht, getLastD_append_singleton, dropLast_append_singleton]
      rcases hor with hA | hU
      · rw [hA]
      · have hus : ¬ u = 's' := by
          intro h; rw [h] at hU; simp [unitMsTable] at hU
        have hum : ¬ u = 'm' := by
          intro h; rw [h] at hU; simp [unitMsTable] at hU
        have huh : ¬ u = 'h' := by
          intro h; rw [h] at hU; simp [unitMsTable] at hU
        have hud : ¬ u = 'd' := by
          intro h; rw [h] at hU; simp [unitMsTable] at hU
        cases hAp : goAtoi pre with
        | none => rfl
        | some v => simp only [if_neg hus, if_neg hum, if_neg huh, if_neg hud]

/-- Claim C1, witness: the amended theorem applied at `"5m"`. -/
theorem parseIntervalMs_spec_witness : parseIntervalMs (strL "5m") = 5 * 60000 :=
  parseIntervalMs_spec.2.2.1 (strL "5m") (strL "5") 'm' 5 60000 (by decide)
    (by decide) (by decide) (by decide) (by decide) (by decide)

theorem replaceAll_nil (pat rep : Str) : replaceAll [] pat rep = [] := by
  cases pat with
  | nil => rfl
  | cons p ps => rfl

theorem aget_aset_self {α : Type} (m : List (Str × α)) (k : Str) (v : α) :
    aget (aset m k v) k = some v := by
  induction m with
  | nil => simp [aget, aset]
  | cons kv rest ih =>
    by_cases h : kv.1 = k
    · simp [aset, aget, h]
    · simp [aset, aget, h, ih]

theorem aget_aset_ne {α : Type} (m : List (Str × α)) (k k' : Str) (v : α)
    (h : k' ≠ k) : aget (aset m k' v) k = aget m k := by
  induction m with
  | nil => simp [aget, aset, h]
  | cons kv rest ih =>
    by_cases hk : kv.1 = k'
    · simp [aset, aget, hk, h]
    · simp only [aset, if_neg hk]
      by_cases hk2 : kv.1 = k
      · simp [aget, hk2]
      · simp [aget, hk2, ih]

theorem stepDs_aget_ne (d : Datasource) (t : Target) {k : Str} (h : k ≠ dsKey) :
    aget (stepDs d t) k = aget t k := by
  unfold stepDs
  by_cases hp : (aget t dsKey).isSome
  · rw [if_pos hp]
  · rw [if_neg hp, aget_aset_ne t k dsKey _ (Ne.symm h)]

theorem stepDs_of_isSome {t : Target} (d : Datasource)
    (h : (aget t dsKey).isSome) : stepDs d t = t := by
  unfold stepDs
  rw [if_pos h]

theorem stepDs_isSome (d : Datasource) (t : Target) :
    (aget (stepDs d t) dsKey).isSome := by
  unfold stepDs
  by_cases hp : (aget t dsKey).isSome
  · rw [if_pos hp]; exact hp
  · rw [if_neg hp, aget_aset_self]; rfl

theorem stepExpr_aget_ne (vars : VarMap) (t : Target) {k : Str}
    (h : k ≠ exprKey) : aget (stepExpr vars t) k = aget t k := by
  unfold stepExpr
  cases hE : aget t exprKey with
  | none => rfl
  | some v =>
    cases v with
    | str e => exact aget_aset_ne t k exprKey _ (Ne.symm h)
    | int n => rfl
    | ds d => rfl
    | mapv m => rfl
    | other => rfl

theorem stepMdp_aget_ne (mdp : Int) (t : Target) {k : Str} (h : k ≠ mdpKey) :
    aget (stepMdp mdp t) k = aget t k := by
  unfold stepMdp
  by_cases hp : (aget t mdpKey).isSome
  · rw [if_pos hp]
  · rw [if_neg hp, aget_aset_ne t k mdpKey _ (Ne.symm h)]

theorem stepMdp_of_isSome {t : Target} (mdp : Int)
    (h : (aget t mdpKey).isSome) : stepMdp mdp t = t := by
  unfold stepMdp
  rw [if_pos h]

theorem stepMdp_isSome (mdp : Int) (t : Target) :
    (aget (stepMdp mdp t) mdpKey).isSome := by
  unfold stepMdp
  by_cases hp : (aget t mdpKey).isSome
  · rw [if_pos hp]; exact hp
  · rw [if_neg hp, aget_aset_self]; rfl

theorem stepIms_aget_ne (ims : Int) (t : Target) {k : Str} (h : k ≠ imsKey) :
    aget (stepIms ims t) k = aget t k := by
  unfold stepIms
  by_cases hpos : 0 < ims
  · rw [if_pos hpos]
    by_cases hp : (aget t imsKey).isSome
    · rw [if_pos hp]
    · rw [if_neg hp, aget_aset_ne t k imsKey _ (Ne.symm h)]
  · rw [if_neg hpos]

theorem stepIms_of_nonpos {ims : Int} (t : Target) (h : ¬ 0 < ims) :
    stepIms ims t = t := by
  unfold stepIms
  rw [if_neg h]

theorem stepIms_isSome_of_pos {ims : Int} (t : Target) (h : 0 < ims) :
    (aget (stepIms ims t) imsKey).isSome := by
  unfold stepIms
  rw [if_pos h]
  by_cases hp : (aget t imsKey).isSome
  · rw [if_pos hp]; exact hp
  · rw [if_neg hp, aget_aset_self]; rfl

theorem stepIms_of_isSome {t : Target} (ims : Int)
    (h : (aget t imsKey).isSome) : stepIms ims t = t := by
  unfold stepIms
  by_cases hpos : 0 < ims
  · rw [if_pos hpos, if_pos h]
  · rw [if_neg hpos]

theorem normalizeTarget_pres (ds : Datasource) (mdp ims : Int) (vars : VarMap)
    (t : Target) (k : Str) (v : TValue)
    (hk : k = dsKey ∨ k = mdpKey ∨ k = imsKey) (h : aget t k = some v) :
    aget (normalizeTarget ds mdp ims vars t) k = some v := by
  rcases hk with hk | hk | hk <;> subst hk
  · unfold normalizeTarget
    rw [stepIms_aget_ne _ _ (by decide), stepMdp_aget_ne _ _ (by decide),
      stepExpr_aget_ne _ _ (by decide), stepDs_of_isSome _ (by rw [h]; rfl), h]
  · have h1 : aget (stepExpr vars (stepDs ds t)) mdpKey = some v := by
      rw [stepExpr_aget_ne _ _ (by decide), stepDs_aget_ne _ _ (by decide), h]
    unfold normalizeTarget
    rw [stepIms_aget_ne _ _ (by decide), stepMdp_of_isSome _ (by rw [h1]; rfl), h1]
  · have h1 : aget (stepMdp mdp (stepExpr vars (stepDs ds t))) imsKey = some v := by
      rw [stepMdp_aget_ne _ _ (by decide), stepExpr_aget_ne _ _ (by decide),
        stepDs_aget_ne _ _ (by decide), h]
    unfold normalizeTarget
    by_cases hp : 0 < ims
    · rw [stepIms_of_isSome _ (by rw [h1]; rfl), h1]
    · rw [stepIms_of_nonpos _ hp, h1]

theorem normalizeTarget_ds_isSome (ds : Datasource) (mdp ims : Int)
    (vars : VarMap) (t : Target) :
    (aget (normalizeTarget ds mdp ims vars t) dsKey).isSome := by
  unfold normalizeTarget
  rw [stepIms_aget_ne _ _ (by decide), stepMdp_aget_ne _ _ (by decide),
    stepExpr_aget_ne _ _ (by decide)]
  exact stepDs_isSome _ _

theorem normalizeTarget_mdp_isSome (ds : Datasource) (mdp ims : Int)
    (vars : VarMap) (t : Target) :
    (aget (normalizeTarget ds mdp ims vars t) mdpKey).isSome := by
  unfold normalizeTarget
  rw [stepIms_aget_ne _ _ (by decide)]
  exact stepMdp_isSome _ _

theorem normalizeTarget_ims_isSome (ds : Datasource) (mdp : Int) {ims : Int}
    (vars : VarMap) (t : Target) (h : 0 < ims) :
    (aget (normalizeTarget ds mdp ims vars t) imsKey).isSome :=
  stepIms_isSome_of_pos _ h

theorem normalizeTarget_stable (ds : Datasource) (mdp ims : Int)
    (vars : VarMap) (t : Target) (k : Str)
    (hk : k = dsKey ∨ k = mdpKey ∨ k = imsKey)
    (hds : (aget t dsKey).isSome) (hmdp : (aget t mdpKey).isSome)
    (hims : 0 < ims → (aget t imsKey).isSome) :
    aget (normalizeTarget ds mdp ims vars t) k = aget t k := by
  rcases hk with hk | hk | hk <;> subst hk
  · unfold normalizeTarget
    rw [stepIms_aget_ne _ _ (by decide), stepMdp_aget_ne _ _ (by decide),
      stepExpr_aget_ne _ _ (by decide), stepDs_of_isSome _ hds]
  · have h1 : aget (stepExpr vars (stepDs ds t)) mdpKey = aget t mdpKey := by
      rw [stepExpr_aget_ne _ _ (by decide), stepDs_aget_ne _ _ (by decide)]
    unfold normalizeTarget
    rw [stepIms_aget_ne _ _ (by decide), stepMdp_of_isSome _ (by rw [h1]; exact hmdp), h1]
  · have h1 : aget (stepMdp mdp (stepExpr vars (stepDs ds t))) imsKey
        = aget t imsKey := by
      rw [stepMdp_aget_ne _ _ (by decide), stepExpr_aget_ne _ _ (by decide),
        stepDs_aget_ne _ _ (by decide)]
    unfold normalizeTarget
    by_cases hp : 0 < ims
    · rw [stepIms_of_isSome _ (by rw [h1]; exact hims hp), h1]
    · rw [stepIms_of_nonpos _ hp, h1]

theorem normLoop_forall2 (dflt : Option Datasource) (mdp ims : Int)
    (vars : VarMap) (ds : Datasource) (ts : List Target) :
    List.Forall₂ (fun t t' => ∃ d0, t' = normalizeTarget d0 mdp ims vars t)
      ts (normLoop dflt mdp ims vars ds ts).2 := by
  induction ts generalizing ds with
  | nil => exact List.Forall₂.nil
  | cons t ts ih =>
    simp only [normLoop]
    exact List.Forall₂.cons ⟨_, rfl⟩ (ih _)

theorem normLoop_targets_post (dflt : Option Datasource) (mdp ims : Int)
    (vars : VarMap) (ds : Datasource) (ts : List Target) :
    ∀ t' ∈ (normLoop dflt mdp ims vars ds ts).2,
      (aget t' dsKey).isSome ∧ (aget t' mdpKey).isSome ∧
        (0 < ims → (aget t' imsKey).isSome) := by
  induction ts generalizing ds with
  | nil => intro t' ht'; simp [normLoop] at ht'
  | cons t ts ih =>
    intro t' ht'
    simp only [normLoop, List.mem_cons] at ht'
    rcases ht' with h | h
    · subst h
      exact ⟨normalizeTarget_ds_isSome _ _ _ _ _, normalizeTarget_mdp_isSome _ _ _ _ _,
        fun hp => normalizeTarget_ims_isSome _ _ _ _ hp⟩
    · exact ih _ _ h

theorem normLoop_ds_stable (dflt : Option Datasource) (mdp ims : Int)
    (vars : VarMap) (ds : Datasource) (ts : List Target) (h : ds.uid ≠ []) :
    (normLoop dflt mdp ims vars ds ts).1 = ds := by
  induction ts with
  | nil => rfl
  | cons t ts ih =>
    simp only [normLoop]
    have hds' : (if (aget t dsKey).isSome then ds
        else if ds.uid = [] then dflt.getD ds else ds) = ds := by
      by_cases hp : (aget t dsKey).isSome
      · rw [if_pos hp]
      · rw [if_neg hp, if_neg h]
    rw [hds']
    exact ih

theorem forall2_getq_mem {α β γ : Type} {R : α → β → Prop} {l : List α}
    {l' : List β} (f : α → γ) (g : β → γ) (h : List.Forall₂ R l l')
    (hR : ∀ a b, a ∈ l → R a b → g b = f a) :
    ∀ i : Nat, (l'.get? i).map g = (l.get? i).map f := by
  induction h with
  | nil => intro i; rfl
  | @cons a b l l' hab htail ih =>
    intro i
    cases i with
    | zero => simp [hR a b (List.mem_cons_self a l) hab]
    | succ n =>
      simpa using ih (fun a' b' ha' => hR a' b' (List.mem_cons_of_mem _ ha')) n

/-- Claim C2: target normalization is idempotent for the datasource,
maxDataPoints and intervalMs injections.  Running the normalization of
`getPanelData` a second time over a panel already normalized once (possibly
with a different resolved default datasource and variable mapping) leaves all
three keys of every target unchanged; each key is only ever set when absent,
never overwritten; and `intervalMs` is only injected when the computed
interval is strictly positive. -/
theorem normalization_injection_idempotent :
    (∀ (dflt1 dflt2 : Option Datasource) (vars1 vars2 : VarMap) (p : Panel)
        (k : Str), (k = dsKey ∨ k = mdpKey ∨ k = imsKey) → ∀ i : Nat,
        (((normalizePanel dflt2 vars2 (normalizePanel dflt1 vars1 p)).targets.get? i).map
            (fun t => aget t k))
          = (((normalizePanel dflt1 vars1 p).targets.get? i).map (fun t => aget t k)))
    ∧ (∀ (ds : Datasource) (mdp ims : Int) (vars : VarMap) (t : Target) (k : Str)
        (v : TValue), (k = dsKey ∨ k = mdpKey ∨ k = imsKey) →
        aget t k = some v → aget (normalizeTarget ds mdp ims vars t) k = some v)
    ∧ (∀ (ds : Datasource) (mdp ims : Int) (vars : VarMap) (t : Target), ims ≤ 0 →
        aget (normalizeTarget ds mdp ims vars t) imsKey = aget t imsKey) := by
  refine ⟨?_, normalizeTarget_pres, ?_⟩
  · intro dflt1 dflt2 vars1 vars2 p k hk i
    refine forall2_getq_mem (fun t => aget t k) (fun t => aget t k)
      (normLoop_forall2 dflt2 _ _ vars2 (normalizePanel dflt1 vars1 p).datasource
        (normalizePanel dflt1 vars1 p).targets) ?_ i
    intro t1 t2 hmem hr
    obtain ⟨d2, rfl⟩ := hr
    obtain ⟨h1, h2, h3⟩ := normLoop_targets_post dflt1 _ _ vars1 p.datasource
      p.targets t1 hmem
    exact normalizeTarget_stable d2 _ _ vars2 t1 k hk h1 h2 h3
  · intro ds mdp ims vars t hims
    unfold normalizeTarget
    rw [stepIms_of_nonpos _ (by omega), stepMdp_aget_ne _ _ (by decide),
      stepExpr_aget_ne _ _ (by decide), stepDs_aget_ne _ _ (by decide)]

/-- Claim C2, witness: the never-overwritten clause applied to a concrete
target that already carries a `maxDataPoints` value. -/
theorem normalization_injection_idempotent_witness :
    aget (normalizeTarget zeroDatasource 5 7 [] [(mdpKey, TValue.int 3)]) mdpKey
      = some (TValue.int 3) :=
  normalization_injection_idempotent.2.1 zeroDatasource 5 7 []
    [(mdpKey, TValue.int 3)] mdpKey (TValue.int 3) (Or.inr (Or.inl rfl)) rfl

theorem replaceFirstPanel_length (pid : Int) (f : Panel → Panel)
    (ps : List Panel) : (replaceFirstPanel pid f ps).length = ps.length := by
  induction ps with
  | nil => rfl
  | cons p ps ih =>
    simp only [replaceFirstPanel]
    by_cases h : p.id == pid
    · rw [if_pos h]; rfl
    · rw [if_neg h]; simpa using ih

theorem replaceFirstPanel_getD (pid : Int) (f : Panel → Panel)
    (ps : List Panel) (i : Nat) (hi : i < ps.length) :
    (replaceFirstPanel pid f ps).getD i panel0 = ps.getD i panel0 ∨
      ((ps.getD i panel0).id = pid ∧
        (replaceFirstPanel pid f ps).getD i panel0 = f (ps.getD i panel0)) := by
  induction ps generalizing i with
  | nil => simp at hi
  | cons p ps ih =>
    simp only [replaceFirstPanel]
    by_cases h : p.id == pid
    · rw [if_pos h]
      cases i with
      | zero => exact Or.inr ⟨by simpa using h, rfl⟩
      | succ n => exact Or.inl rfl
    · rw [if_neg h]
      cases i with
      | zero => exact Or.inl rfl
      | succ n =>
        have hn : n < ps.length := by simpa using hi
        simpa [List.getD] using ih n hn

theorem normalizePanel_ds_stable (dflt : Option Datasource) (vars : VarMap)
    (p : Panel) (h : p.datasource.uid ≠ []) :
    (normalizePanel dflt vars p).datasource = p.datasource :=
  normLoop_ds_stable _ _ _ _ _ _ h

/-- Claim C6, amended.  Panel-data retrieval leaves every field of the
dashboard unchanged except, on the located panel alone, its targets and —
when the panel's own datasource is empty and default resolution kicks in —
its datasource field: the dashboard identifiers, time range and templating
list are untouched, every non-located panel is untouched, and the located
panel keeps its ID, title, interval and maxDataPoints, keeping also its
datasource whenever that datasource is non-empty. -/
theorem getPanelData_mutation_frame (dflt : Option Datasource) (vars : VarMap)
    (pid : Int) (d d' : Dashboard)
    (h : getPanelDataDash dflt vars pid d = some d') :
    d'.id = d.id ∧ d'.uid = d.uid ∧ d'.time = d.time ∧
      d'.templating = d.templating ∧
      d'.panels.length = d.panels.length ∧
      (∀ i : Nat, i < d.panels.length →
        d'.panels.getD i panel0 = d.panels.getD i panel0 ∨
          ((d.panels.getD i panel0).id = pid ∧
            d'.panels.getD i panel0 = normalizePanel dflt vars (d.panels.getD i panel0))) ∧
      (∀ p : Panel,
        (normalizePanel dflt vars p).id = p.id ∧
          (normalizePanel dflt vars p).title = p.title ∧
          (normalizePanel dflt vars p).interval = p.interval ∧
          (normalizePanel dflt vars p).maxDataPoints = p.maxDataPoints ∧
          (p.datasource.uid ≠ [] →
            (normalizePanel dflt vars p).datasource = p.datasource)) := by
  unfold getPanelDataDash at h
  cases hF : getPanelByID d pid with
  | none => rw [hF] at h; exact Option.noConfusion h
  | some p0 =>
    rw [hF] at h
    injection h with h
    subst h
    refine ⟨rfl, rfl, rfl, rfl, replaceFirstPanel_length _ _ _, ?_, ?_⟩
    · intro i hi
      exact replaceFirstPanel_getD pid _ d.panels i hi
    · intro p
      exact ⟨rfl, rfl, rfl, rfl, fun hne => normalizePanel_ds_stable dflt vars p hne⟩

/-- Claim C6, counterexample.  On a dashboard whose located panel has an
empty datasource and a target without one, panel-data retrieval overwrites
the panel's own `Datasource` field with the resolved default — so the claim
that "each Panel's own Datasource reference is left unchanged" fails. -/
theorem getPanelData_mutates_panel_datasource_cx :
    (getPanelDataDash (some dsD) [] 1 dEx).map
        (fun d => (d.panels.getD 0 panel0).datasource) = some dsD
      ∧ (dEx.panels.getD 0 panel0).datasource = zeroDatasource
      ∧ zeroDatasource ≠ dsD := by
  refine ⟨rfl, rfl, by decide⟩

/-- Claim C6, witness: the amended frame theorem applied at a concrete
dashboard. -/
theorem getPanelData_mutation_frame_witness :
    dExNorm.time = dEx.time ∧ dExNorm.panels.length = dEx.panels.length :=
  ⟨(getPanelData_mutation_frame (some dsD) [] 1 dEx dExNorm rfl).2.2.1,
    (getPanelData_mutation_frame (some dsD) [] 1 dEx dExNorm rfl).2.2.2.2.1⟩

/-- Claim C3, counterexample.  When no datasource is flagged default, the
zero value is cached, so the guard `c.defaultDatasource.UID != ""` fails
again on the next call and the list is fetched a second time: the datasource
list is not fetched "at most once per client". -/
theorem defaultDatasource_refetch_cx :
    (getDefaultDatasourceM [⟨strL "a", strL "prometheus", false⟩]
        zeroDatasource).2.2 = true
      ∧ (getDefaultDatasourceM [⟨strL "a", strL "prometheus", false⟩]
          (getDefaultDatasourceM [⟨strL "a", strL "prometheus", false⟩]
            zeroDatasource).1).2.2 = true
      ∧ (getDefaultDatasourceM [⟨strL "a", strL "prometheus", false⟩]
          zeroDatasource).2.1 = zeroDatasource := by
  decide

/-- Claim C3, amended.  Default-datasource resolution memoizes only once a
default datasource with a non-empty UID has been found: a call with a
non-empty cached value returns it without any fetch; a call with an empty
cache always fetches the list and returns (and caches) the first datasource
flagged default, or the unchanged zero value, without error, when none is
flagged; and after any call whose result has a non-empty UID, later calls
return exactly that value without fetching. -/
theorem defaultDatasource_memoization :
    (∀ (backend : List Datasource) (cache : Datasource), cache.uid ≠ [] →
        getDefaultDatasourceM backend cache = (cache, cache, false))
    ∧ (∀ (backend : List Datasource) (cache : Datasource), cache.uid = [] →
        (getDefaultDatasourceM backend cache).2.2 = true
          ∧ (getDefaultDatasourceM backend cache).2.1
              = (backend.find? (fun d => d.isDefault)).getD cache
          ∧ (getDefaultDatasourceM backend cache).1
              = (getDefaultDatasourceM backend cache).2.1)
    ∧ (∀ (backend backend2 : List Datasource) (cache : Datasource),
        (getDefaultDatasourceM backend cache).1.uid ≠ [] →
        getDefaultDatasourceM backend2 (getDefaultDatasourceM backend cache).1
          = ((getDefaultDatasourceM backend cache).1,
              (getDefaultDatasourceM backend cache).1, false)) := by
  refine ⟨?_, ?_, ?_⟩
  · intro backend cache h
    unfold getDefaultDatasourceM
    rw [if_pos h]
  · intro backend cache h
    unfold getDefaultDatasourceM
    rw [if_neg (by simp [h])]
    cases hF : backend.find? (fun d => d.isDefault) with
    | none => exact ⟨rfl, rfl, rfl⟩
    | some d => exact ⟨rfl, rfl, rfl⟩
  · intro backend backend2 cache h
    generalize (getDefaultDatasourceM backend cache).1 = c2 at h ⊢
    unfold getDefaultDatasourceM
    rw [if_pos h]

/-- Claim C3, witness: the amended theorem applied at concrete states. -/
theorem defaultDatasource_memoization_witness :
    getDefaultDatasourceM [] dsD = (dsD, dsD, false)
      ∧ (getDefaultDatasourceM [dsD] zeroDatasource).2.1 = dsD :=
  ⟨defaultDatasource_memoization.1 [] dsD (by decide),
    by rw [(defaultDatasource_memoization.2.1 [dsD] zeroDatasource rfl).2.1]; decide⟩

example : splitChar ',' (strL "a,b,c") = [strL "a", strL "b", strL "c"] := by decide

example : joinChar ',' [strL "a", strL "b"] = strL "a,b" := by decide

theorem trimPrefixStr_append (pre s : Str) : trimPrefixStr pre (pre ++ s) = s := by
  unfold trimPrefixStr
  rw [if_pos (List.isPrefixOf_iff_prefix.mpr (List.prefix_append pre s)),
    List.drop_left]

theorem trimSuffixStr_append (suf s : Str) : trimSuffixStr suf (s ++ suf) = s := by
  unfold trimSuffixStr
  rw [if_pos (List.isSuffixOf_iff_suffix.mpr (List.suffix_append s suf)),
    List.length_append]
  have h : s.length + suf.length - suf.length = s.length := by omega
  rw [h, List.take_left]

theorem strip_lv (s : Str) :
    trimSuffixStr (strL ")") (trimPrefixStr lvPre (lvPre ++ s ++ [')'])) = s := by
  rw [List.append_assoc, trimPrefixStr_append]
  have h : strL ")" = [')'] := rfl
  rw [h]
  exact trimSuffixStr_append [')'] s

/-- Claim C5: for a query `label_values(` ++ s ++ `)`, the parser splits the
inside on commas; with at least two segments the last segment (trimmed) is
the label and the preceding segments, rejoined with commas, form the metric
expression (variables applied); with fewer than two segments the query is
rejected; and `label_values(my_metric{a="b"}, le)` yields the metric
`my_metric{a="b"}` and label `le`. -/
theorem getLabelValues_parse_spec :
    (∀ (vars : VarMap) (s p0 p1 : Str) (rest : List Str),
        splitChar ',' s = p0 :: p1 :: rest →
        parseLabelValuesQuery vars (lvPre ++ s ++ [')'])
          = some (applyVariables vars
                (trimSpaceGo (joinChar ',' ((p0 :: p1 :: rest).dropLast))),
              trimSpaceGo ((p0 :: p1 :: rest).getLastD [])))
    ∧ (∀ (vars : VarMap) (s : Str), (splitChar ',' s).length < 2 →
        parseLabelValuesQuery vars (lvPre ++ s ++ [')']) = none)
    ∧ parseLabelValuesQuery [] (strL "label_values(my_metric\x7ba=\"b\"\x7d, le)")
        = some (strL "my_metric\x7ba=\"b\"\x7d", strL "le") := by
  refine ⟨?_, ?_, by decide⟩
  · intro vars s p0 p1 rest hsplit
    simp only [parseLabelValuesQuery]
    rw [strip_lv, hsplit]
    cases rest with
    | nil => rfl
    | cons r rs => rfl
  · intro vars s hlen
    simp only [parseLabelValuesQuery]
    rw [strip_lv]
    cases hsplit : splitChar ',' s with
    | nil => rfl
    | cons a t =>
      cases t with
      | nil => rfl
      | cons b t2 =>
        rw [hsplit, List.length_cons, List.length_cons] at hlen
        omega

/-- Claim C5, witness: the split clause applied at `label_values(a,b)`. -/
theorem getLabelValues_parse_spec_witness :
    parseLabelValuesQuery [] (lvPre ++ strL "a,b" ++ [')'])
      = some (strL "a", strL "b") :=
  (getLabelValues_parse_spec.1 [] (strL "a,b") (strL "a") (strL "b") []
      (by decide)).trans (by decide)

theorem gdvRun_append (dflt : Option Datasource)
    (lv : Str → Str → Str → Option (List Str)) (pre post : List TemplateVar)
    (vars : Option VarMap) (res : List (Str × List Str)) :
    gdvRun dflt lv (pre ++ post) vars res =
      match gdvSteps dflt lv pre vars res with
      | .cont v r => gdvRun dflt lv post v r
      | .fail => .err
      | .nilMapWrite => .nilMapWrite := by
  induction pre generalizing vars res with
  | nil => rfl
  | cons tpl rest ih =>
    show gdvRun dflt lv (tpl :: (rest ++ post)) vars res = _
    simp only [gdvRun, gdvSteps]
    cases gdvStep dflt lv tpl vars res with
    | cont v r => exact ih v r
    | fail => rfl
    | nilMapWrite => rfl

/-- Claim C7: if the label-values resolution of any single query-type
template variable fails, `GetDashboardVariables` fails as a whole — whatever
was resolved before the failing variable, the outcome is the bare error
(`return nil, err`), carrying no partial result mapping — rather than
skipping the failed variable and continuing. -/
theorem gdv_label_failure_aborts (dflt : Option Datasource)
    (lv : Str → Str → Str → Option (List Str)) (pre post : List TemplateVar)
    (tpl : TemplateVar) (vars vars2 : Option VarMap)
    (res res2 : List (Str × List Str)) (m : List (Str × TValue))
    (q : Str) (ds : Datasource)
    (hpre : gdvSteps dflt lv pre vars res = .cont vars2 res2)
    (htype : tpl.type = strL "query")
    (hquery : tpl.query = .mapv m)
    (hqs : aget m (strL "query") = some (.str q))
    (hds : (if tpl.datasource.uid = [] then dflt else some tpl.datasource) = some ds)
    (hpfx : lvPre.isPrefixOf q = true)
    (hlv : getLabelValuesM lv vars2 ds.uid q = none) :
    gdvRun dflt lv (pre ++ tpl :: post) vars res = .err := by
  rw [gdvRun_append, hpre]
  show gdvRun dflt lv (tpl :: post) vars2 res2 = .err
  have hstep : gdvStep dflt lv tpl vars2 res2 = .fail := by
    unfold gdvStep
    rw [if_neg (by rw [htype]; exact fun h => h rfl), hquery]
    show (match aget m (strL "query") with
      | some (.str q) => _
      | _ => _ : StepOut) = _
    rw [hqs]
    show (match (if tpl.datasource.uid = [] then dflt else some tpl.datasource) with
      | none => StepOut.fail
      | some ds => _) = _
    rw [hds]
    show (if lvPre.isPrefixOf q then _ else _ : StepOut) = _
    rw [if_pos hpfx]
    show (match getLabelValuesM lv vars2 ds.uid q with
      | none => StepOut.fail
      | some values => _) = _
    rw [hlv]
  simp only [gdvRun, hstep]

/-- Claim C7, witness: the abort theorem applied to a concrete dashboard with
one failing variable. -/
theorem gdv_label_failure_aborts_witness :
    gdvRun none (fun _ _ _ => none) ([] ++ tplFail :: []) (some []) [] = .err :=
  gdv_label_failure_aborts none (fun _ _ _ => none) [] [] tplFail (some [])
    (some []) [] [] [(strL "query", .str (strL "label_values(up,instance)"))]
    (strL "label_values(up,instance)") ⟨strL "X", [], false⟩
    rfl rfl rfl rfl rfl (by decide) rfl

/-- Claim C4: evaluation of `GetDashboardVariables` at the claim's own
scenario.  One query-type variable whose `label_values` query resolves to
`["1","2"]`, with no caller-supplied variable mapping (`options.variables` is
a nil Go map): the code reaches `options.variables[tpl.Name] = strings.Join(values, "|")`
and panics (assignment to entry in nil map) instead of completing; the same
call with an empty non-nil mapping completes and stores the values. -/
theorem gdv_nil_map_panics :
    gdvRun (some dsD) (fun _ _ _ => some [strL "1", strL "2"]) [tplOk] none []
        = .nilMapWrite
      ∧ gdvRun (some dsD) (fun _ _ _ => some [strL "1", strL "2"]) [tplOk]
          (some []) []
          = .ok [(strL "v", [strL "1", strL "2"])] := by
  constructor
  · rfl
  · rfl

theorem framePairsAux_eq_zipWith (vs : List Int) (ts : List Int) (i : Nat) :
    framePairsAux vs ts i
      = List.zipWith (fun t v => (Int.tdiv t 1000, v)) ts (vs.drop i) := by
  induction ts generalizing i with
  | nil => rfl
  | cons t ts ih =>
    unfold framePairsAux
    by_cases h : i < vs.length
    · rw [if_pos h]
      have hdrop : vs.drop i = vs[i] :: vs.drop (i + 1) :=
        List.drop_eq_getElem_cons h
      rw [hdrop, List.zipWith_cons_cons, ih (i + 1), List.getD_eq_getElem vs 0 h]
    · rw [if_neg h]
      have h1 : vs.drop i = [] := List.drop_eq_nil_of_le (by omega)
      have h2 : vs.drop (i + 1) = [] := List.drop_eq_nil_of_le (by omega)
      rw [h1, ih (i + 1), h2]
      simp

theorem framePairs_cons (ts vs : List Int) (rest : List (List Int)) :
    framePairs (ts :: vs :: rest)
      = List.zipWith (fun t v => (Int.tdiv t 1000, v)) ts vs := by
  show framePairsAux vs ts 0 = _
  rw [framePairsAux_eq_zipWith, List.drop_zero]

/-- Claim C8: a frame with at least two parallel arrays yields exactly one
`[timestamp/1000, value]` pair per index present in both array 0 and array 1
— `min(len0, len1)` pairs, in index order, timestamps divided by 1000 with Go
integer division — and a frame with fewer than two arrays yields none. -/
theorem frame_sample_pairs :
    (∀ (legends : List (Str × Str)) (ref : Str) (f : Frame) (ts vs : List Int)
        (rest : List (List Int)), f.data.values = ts :: vs :: rest →
        (frameToProm legends ref f).values
            = List.zipWith (fun t v => (Int.tdiv t 1000, v)) ts vs
          ∧ (frameToProm legends ref f).values.length = min ts.length vs.length)
    ∧ (∀ (legends : List (Str × Str)) (ref : Str) (f : Frame),
        f.data.values.length < 2 → (frameToProm legends ref f).values = []) := by
  constructor
  · intro legends ref f ts vs rest h
    have hv : (frameToProm legends ref f).values = framePairs f.data.values := rfl
    rw [hv, h, framePairs_cons]
    exact ⟨rfl, List.length_zipWith ..⟩
  · intro legends ref f h
    have hv : (frameToProm legends ref f).values = framePairs f.data.values := rfl
    rw [hv]
    cases hval : f.data.values with
    | nil => rfl
    | cons a t =>
      cases t with
      | nil => rfl
      | cons b t2 =>
        rw [hval, List.length_cons, List.length_cons] at h
        omega

/-- Claim C8, witness: the pair clause applied at a concrete frame whose
value array is shorter than its timestamp array. -/
theorem frame_sample_pairs_witness :
    (frameToProm [] (strL "A") ⟨⟨[]⟩, ⟨[[2000, 3500], [7]]⟩⟩).values = [(2, 7)] :=
  ((frame_sample_pairs.1 [] (strL "A") ⟨⟨[]⟩, ⟨[[2000, 3500], [7]]⟩⟩
      [2000, 3500] [7] [] rfl).1).trans (by decide)

theorem labelsFold_eq (labels : List (Str × Str)) (lg : Str) :
    labels.foldl
        (fun lg kv => if lg = [] then lg else replaceAll lg (legendPat kv.1) kv.2) lg
      = labels.foldl (fun lg kv => replaceAll lg (legendPat kv.1) kv.2) lg := by
  induction labels generalizing lg with
  | nil => rfl
  | cons kv rest ih =>
    simp only [List.foldl_cons]
    by_cases h : lg = []
    · rw [if_pos h, h, replaceAll_nil]
      exact ih []
    · rw [if_neg h]
      exact ih _

theorem frameLegendFold_eq (fields : List Field) (lg : Str) :
    frameLegendFold lg fields = legendSubstAll lg fields := by
  induction fields generalizing lg with
  | nil => rfl
  | cons f rest ih =>
    simp only [frameLegendFold, legendSubstAll, List.foldl_cons]
    rw [labelsFold_eq]
    exact ih _

/-- Claim C9: the transcoder attaches, as the `__legend__` metric label, the
legend looked up by the frame's reference ID with every `"{{key}}"`
placeholder replaced by the label's value, accumulated over all schema fields
in field order; in particular legend `"{{instance}}"` with field label
`instance=host1` yields `__legend__ = "host1"`, also through the full
`ConvertResultToPrometheusFormat` pipeline. -/
theorem legend_substitution :
    (∀ (legends : List (Str × Str)) (ref : Str) (f : Frame),
        aget (frameToProm legends ref f).metric (strL "__legend__")
          = some (legendSubstAll ((aget legends ref).getD []) f.schema.fields))
    ∧ aget (frameToProm [(strL "A", legendPat (strL "instance"))] (strL "A")
          ⟨⟨[⟨[(strL "instance", strL "host1")]⟩]⟩, ⟨[]⟩⟩).metric (strL "__legend__")
        = some (strL "host1")
    ∧ ((ConvertResultToPrometheusFormat
          ⟨[(strL "A", ⟨[⟨⟨[⟨[(strL "instance", strL "host1")]⟩]⟩, ⟨[]⟩⟩]⟩)],
            [(strL "A", legendPat (strL "instance"))]⟩).data.result.map
          (fun r => aget r.metric (strL "__legend__"))) = [some (strL "host1")] := by
  refine ⟨?_, by decide, by decide⟩
  intro legends ref f
  show aget (aset (frameLabelsFold ref f.schema.fields) (strL "__legend__")
      (frameLegendFold ((aget legends ref).getD []) f.schema.fields))
      (strL "__legend__") = _
  rw [aget_aset_self, frameLegendFold_eq]

example : goParseInt0 (strL "0x10") = some 16 := by decide

example : goParseInt0 (strL "08") = none := by decide

example : goParseInt0 (strL "-12") = some (-12) := by decide

example : goParseInt0 (strL "1_2") = some 12 := by decide

example : goParseInt0 (strL "_12") = none := by decide

/-- Claim C10: `ExtractArgs` is total and never errors:
`"https://host/d/foobar/fizz?viewPanel=4"` (whose parsed path is
`/d/foobar/fizz` with query `viewPanel=4`) yields `("foobar", 4)`; a
malformed URL, fewer than three path segments, a missing `viewPanel`
parameter, or a non-integer `viewPanel` value yield `("", 0)`. -/
theorem extractArgs_spec :
    ExtractArgs none = ([], 0)
    ∧ (∀ pu : ParsedURL, (splitChar '/' pu.path).length < 3 →
        ExtractArgs (some pu) = ([], 0))
    ∧ (∀ pu : ParsedURL, queryGet pu.query (strL "viewPanel") = [] →
        ExtractArgs (some pu) = ([], 0))
    ∧ (∀ pu : ParsedURL, goParseInt0 (queryGet pu.query (strL "viewPanel")) = none →
        ExtractArgs (some pu) = ([], 0))
    ∧ ExtractArgs (some ⟨strL "/d/foobar/fizz", [(strL "viewPanel", strL "4")]⟩)
        = (strL "foobar", 4) := by
  refine ⟨rfl, ?_, ?_, ?_, by decide⟩
  · intro pu h
    simp only [ExtractArgs]
    rw [if_neg (by omega)]
  · intro pu h
    simp only [ExtractArgs]
    by_cases hlen : 3 ≤ (splitChar '/' pu.path).length
    · rw [if_pos hlen, h]
      rfl
    · rw [if_neg hlen]
  · intro pu h
    simp only [ExtractArgs]
    by_cases hlen : 3 ≤ (splitChar '/' pu.path).length
    · rw [if_pos hlen]
      by_cases hvp : queryGet pu.query (strL "viewPanel") = []
      · rw [hvp]
        rfl
      · rw [if_neg hvp, h]
    · rw [if_neg hlen]

/-- Claim C10, witness: the spec applied at concrete URLs (short path,
missing `viewPanel`, non-integer `viewPanel`). -/
theorem extractArgs_spec_witness :
    ExtractArgs (some ⟨strL "/d", []⟩) = ([], 0)
      ∧ ExtractArgs (some ⟨strL "/d/foobar/fizz", []⟩) = ([], 0)
      ∧ ExtractArgs (some ⟨strL "/d/foobar/fizz",
          [(strL "viewPanel", strL "x9")]⟩) = ([], 0) :=
  ⟨extractArgs_spec.2.1 ⟨strL "/d", []⟩ (by decide),
    extractArgs_spec.2.2.1 ⟨strL "/d/foobar/fizz", []⟩ (by decide),
    extractArgs_spec.2.2.2.1 ⟨strL "/d/foobar/fizz",
      [(strL "viewPanel", strL "x9")]⟩ (by decide)⟩

end Grafanadata
